import Mathlib

/-!
Verification of the preference service and store of the Thunder repository
(backend/internal/preference). The Go code is shallowly embedded: Go strings
become lists of characters, the database client and the transactioner become
explicit behaviour records (oracles), and each service or store method becomes
a pure Lean function returning its Go result together with the list of
collaborator calls it made, so that claims of the form "no store call occurs"
are statable.

A Go map passed to UpsertPreferences is embedded as an association list: the
list order stands for the (nondeterministic) iteration order of the map, and
theorems quantify over it.
-/

set_option linter.dupNamespace false

namespace Thunder.Preference

/-- Go strings, embedded as sequences of characters. Go `len` is a byte count;
here length counts characters, which agrees with the byte count on ASCII data. -/
abbrev GoString := List Char

/-- Character length of an embedded Go string (Go `len`). -/
def lenGo (s : GoString) : Nat := s.length

/-- Whitespace predicate of Go `unicode.IsSpace` restricted to the Latin-1
characters Go trims: tab, newline, vertical tab, form feed, carriage return,
space, next line (U+0085) and no-break space (U+00A0). -/
def isSpaceGo (c : Char) : Bool :=
  c == ' ' || c == Char.ofNat 9 || c == Char.ofNat 10 || c == Char.ofNat 11 ||
  c == Char.ofNat 12 || c == Char.ofNat 13 || c == Char.ofNat 133 || c == Char.ofNat 160

/-- Go `strings.TrimSpace`: drop leading and trailing whitespace. -/
def trimSpace (s : GoString) : GoString :=
  ((s.dropWhile isSpaceGo).reverse.dropWhile isSpaceGo).reverse

/-- Error classes of `serviceerror` (ClientErrorType / ServerErrorType). -/
inductive ErrorTypeKind where
  | clientError
  | serverError
deriving DecidableEq, Repr

/-- `serviceerror.ServiceError` from the Go source (field `Type` is renamed
`errorType`, and `Error` is renamed `errorMsg`, since Lean reserves the words). -/
structure ServiceError where
  code : String
  errorType : ErrorTypeKind
  errorMsg : String
  errorDescription : String
deriving DecidableEq, Repr

/-- `ErrorPreferenceNotFound` from error_constants.go. -/
def ErrorPreferenceNotFound : ServiceError :=
  { code := "PREF-4001"
    errorType := ErrorTypeKind.clientError
    errorMsg := "Preference not found"
    errorDescription := "The requested preference does not exist" }

/-- `ErrorInvalidPreferenceKey` from error_constants.go. -/
def ErrorInvalidPreferenceKey : ServiceError :=
  { code := "PREF-4002"
    errorType := ErrorTypeKind.clientError
    errorMsg := "Invalid preference key"
    errorDescription := "The preference key is invalid or exceeds maximum length" }

/-- `ErrorInvalidPreferenceValue` from error_constants.go. -/
def ErrorInvalidPreferenceValue : ServiceError :=
  { code := "PREF-4003"
    errorType := ErrorTypeKind.clientError
    errorMsg := "Invalid preference value"
    errorDescription := "The preference value exceeds maximum length" }

/-- `ErrorAuthenticationFailed` from error_constants.go. -/
def ErrorAuthenticationFailed : ServiceError :=
  { code := "PREF-4000"
    errorType := ErrorTypeKind.clientError
    errorMsg := "Authentication failed"
    errorDescription := "User authentication is required" }

/-- `ErrorInvalidRequest` from error_constants.go. -/
def ErrorInvalidRequest : ServiceError :=
  { code := "PREF-4004"
    errorType := ErrorTypeKind.clientError
    errorMsg := "Invalid request"
    errorDescription := "The request is invalid or missing required fields" }

/-- `ErrorInternalServerError` from error_constants.go. -/
def ErrorInternalServerError : ServiceError :=
  { code := "PREF-5000"
    errorType := ErrorTypeKind.serverError
    errorMsg := "Internal server error"
    errorDescription := "An unexpected error occurred while processing the request" }

/-- `maxPreferenceKeyLength` from service.go. -/
def maxPreferenceKeyLength : Nat := 255

/-- `maxPreferenceValueLength` from service.go. -/
def maxPreferenceValueLength : Nat := 10000

/-- `validatePreferenceKey` from service.go: rejects a key that trims to the
empty string or is longer than 255. -/
def validatePreferenceKey (key : GoString) : Option ServiceError :=
  if trimSpace key = [] then some ErrorInvalidPreferenceKey
  else if lenGo key > maxPreferenceKeyLength then some ErrorInvalidPreferenceKey
  else none

/-- `validatePreferenceValue` from service.go: rejects a value longer than 10000. -/
def validatePreferenceValue (value : GoString) : Option ServiceError :=
  if lenGo value > maxPreferenceValueLength then some ErrorInvalidPreferenceValue
  else none

/-- The `Preference` model (model.go / store.go): key, value and the two
timestamps, all carried as strings the way store.go populates them. -/
structure Preference where
  key : GoString
  value : GoString
  createdAt : GoString
  updatedAt : GoString
deriving DecidableEq, Repr

/-- Errors the store layer can return: the sentinel `ErrPreferenceNotFound`
from store.go, or a database error wrapped by `fmt.Errorf` with a context
message (the service only distinguishes the sentinel, via `errors.Is`). -/
inductive StoreError where
  | preferenceNotFound
  | wrapped (ctx : String) (cause : String)
deriving DecidableEq, Repr

/-- A database cell as seen through Go `interface\x7b\x7d`: SQL NULL (or a missing
column) is `null`, a string is `strv`, and any other driver type is carried by
the string `fmt.Sprintf` would render for it. -/
inductive DBValue where
  | null
  | strv (s : GoString)
  | rendered (r : GoString)
deriving DecidableEq, Repr

/-- `toString` from store.go: nil becomes the empty string, a string is
returned as is, anything else is its Sprintf rendering. -/
def toString : DBValue → GoString
  | DBValue.null => []
  | DBValue.strv s => s
  | DBValue.rendered r => r

/-- One row of the USER_PREFERENCE queries: the four selected columns. -/
structure DBRow where
  preference_key : DBValue
  preference_value : DBValue
  created_at : DBValue
  updated_at : DBValue
deriving DecidableEq, Repr

/-- One call the store makes on the database client, with the positional query
arguments; the final argument of each query is the deployment discriminator
(store_constants.go binds it as the last placeholder of every query). -/
inductive DBCall where
  | queryGetPreferenceByKey (userID key deploymentID : GoString)
  | queryGetPreferencesByUserID (userID deploymentID : GoString)
  | execUpsertPreference (userID key value deploymentID : GoString)
  | execDeletePreference (userID key deploymentID : GoString)
deriving DecidableEq, Repr

/-- Behaviour of the database client (`provider.DBClientInterface`), one oracle
per query constant of store_constants.go: queries yield rows or an error
message, executes yield the affected row count or an error message. -/
structure DBClientBehavior where
  queryGetPreferenceByKey : GoString → GoString → GoString → Except String (List DBRow)
  queryGetPreferencesByUserID : GoString → GoString → Except String (List DBRow)
  execUpsertPreference : GoString → GoString → GoString → GoString → Except String Nat
  execDeletePreference : GoString → GoString → GoString → Except String Nat

/-- `preferenceStore` from store.go: a database client plus the deployment
discriminator fixed at construction. -/
structure preferenceStore where
  dbClient : DBClientBehavior
  deploymentID : GoString

/-- The runtime configuration read by `newPreferenceStore`
(`config.GetThunderRuntime().Config.Server.Identifier`). -/
structure ThunderRuntimeConfig where
  serverIdentifier : GoString

/-- `newPreferenceStore` from store.go: captures the server identifier of the
process configuration as the store's deployment discriminator. (Acquisition of
the database client can fail in Go; the embedding takes the acquired client.) -/
def newPreferenceStore (runtime : ThunderRuntimeConfig) (dbClient : DBClientBehavior) :
    preferenceStore :=
  { dbClient := dbClient, deploymentID := runtime.serverIdentifier }

/-- Row-to-Preference conversion as written inline in store.go: key and value
through `toString`, timestamps only when the column is non-nil (the zero value
of a Go string field is the empty string). -/
def convRow (row : DBRow) : Preference :=
  let base : Preference :=
    { key := toString row.preference_key
      value := toString row.preference_value
      createdAt := []
      updatedAt := [] }
  let withCreated : Preference :=
    match row.created_at with
    | DBValue.null => base
    | v => { base with createdAt := toString v }
  match row.updated_at with
  | DBValue.null => withCreated
  | v => { withCreated with updatedAt := toString v }

/-- `preferenceStore.GetPreferenceByKey` from store.go. -/
def preferenceStore.GetPreferenceByKey (ps : preferenceStore) (userID key : GoString) :
    (Option Preference × Option StoreError) × List DBCall :=
  let call := DBCall.queryGetPreferenceByKey userID key ps.deploymentID
  match ps.dbClient.queryGetPreferenceByKey userID key ps.deploymentID with
  | Except.error e => ((none, some (StoreError.wrapped "failed to execute query" e)), [call])
  | Except.ok results =>
    match results with
    | [] => ((none, some StoreError.preferenceNotFound), [call])
    | row :: _ => ((some (convRow row), none), [call])

/-- `preferenceStore.GetPreferencesByUserID` from store.go. The first result
component models the Go slice, `none` standing for a nil slice: the success
path always allocates, so it returns `some`, possibly of the empty list. -/
def preferenceStore.GetPreferencesByUserID (ps : preferenceStore) (userID : GoString) :
    (Option (List Preference) × Option StoreError) × List DBCall :=
  let call := DBCall.queryGetPreferencesByUserID userID ps.deploymentID
  match ps.dbClient.queryGetPreferencesByUserID userID ps.deploymentID with
  | Except.error e => ((none, some (StoreError.wrapped "failed to execute query" e)), [call])
  | Except.ok results => ((some (results.map convRow), none), [call])

/-- `preferenceStore.UpsertPreference` from store.go: the affected row count is
discarded, only the error matters. -/
def preferenceStore.UpsertPreference (ps : preferenceStore) (userID key value : GoString) :
    Option StoreError × List DBCall :=
  let call := DBCall.execUpsertPreference userID key value ps.deploymentID
  match ps.dbClient.execUpsertPreference userID key value ps.deploymentID with
  | Except.error e => (some (StoreError.wrapped "failed to upsert preference" e), [call])
  | Except.ok _ => (none, [call])

/-- `preferenceStore.DeletePreference` from store.go: a zero affected-row count
becomes the `preferenceNotFound` sentinel. -/
def preferenceStore.DeletePreference (ps : preferenceStore) (userID key : GoString) :
    Option StoreError × List DBCall :=
  let call := DBCall.execDeletePreference userID key ps.deploymentID
  match ps.dbClient.execDeletePreference userID key ps.deploymentID with
  | Except.error e => (some (StoreError.wrapped "failed to delete preference" e), [call])
  | Except.ok rowsAffected =>
    if rowsAffected = 0 then (some StoreError.preferenceNotFound, [call])
    else (none, [call])

/-- The store contract the service programs against
(`preferenceStoreInterface`): the result of each data-access operation, with
Go `(pointer, error)` pairs embedded as pairs of options. -/
structure storeBehavior where
  getPreferenceByKey : GoString → GoString → Option Preference × Option StoreError
  getPreferencesByUserID : GoString → Option (List Preference) × Option StoreError
  upsertPreference : GoString → GoString → GoString → Option StoreError
  deletePreference : GoString → GoString → Option StoreError

/-- The collaborator calls a service operation performs: the four store calls
and the invocation of the Transactioner. -/
inductive CallEvent where
  | getCall (userID key : GoString)
  | getAllCall (userID : GoString)
  | upsertCall (userID key value : GoString)
  | deleteCall (userID key : GoString)
  | transactCall
deriving DecidableEq, Repr

/-- Behaviour of `transaction.Transactioner`: `Transact` can fail before the
unit of work runs (begin) or after it returned nil (commit); when the unit of
work itself returns an error, `Transact` propagates it. -/
structure TxBehavior where
  beginError : Option String
  commitError : Option String

/-- `preferenceService` from service.go: a store and a transactioner. -/
structure preferenceService where
  store : storeBehavior
  transactioner : TxBehavior

/-- `preferenceService.GetPreferenceByKey` from service.go: key validation,
then one store call, with `errors.Is(err, ErrPreferenceNotFound)` mapped to
the not-found service error and everything else to the internal error. -/
def preferenceService.GetPreferenceByKey (ps : preferenceService) (userID key : GoString) :
    (Option Preference × Option ServiceError) × List CallEvent :=
  match validatePreferenceKey key with
  | some e => ((none, some e), [])
  | none =>
    let res := ps.store.getPreferenceByKey userID key
    let events := [CallEvent.getCall userID key]
    match res.2 with
    | some StoreError.preferenceNotFound => ((none, some ErrorPreferenceNotFound), events)
    | some _ => ((none, some ErrorInternalServerError), events)
    | none => ((res.1, none), events)

/-- `preferenceService.GetPreferencesByUserID` from service.go: one store
call; a store error collapses to the internal error, otherwise the slice is
returned as received. -/
def preferenceService.GetPreferencesByUserID (ps : preferenceService) (userID : GoString) :
    (Option (List Preference) × Option ServiceError) × List CallEvent :=
  let res := ps.store.getPreferencesByUserID userID
  let events := [CallEvent.getAllCall userID]
  match res.2 with
  | some _ => ((none, some ErrorInternalServerError), events)
  | none => ((res.1, none), events)

/-- The validation loop at the top of `UpsertPreferences` (service.go): every
pair is checked, key before value, and the first violation is returned. -/
def validateAllPreferences : List (GoString × GoString) → Option ServiceError
  | [] => none
  | (key, value) :: rest =>
    match validatePreferenceKey key with
    | some e => some e
    | none =>
      match validatePreferenceValue value with
      | some e => some e
      | none => validateAllPreferences rest

/-- The unit of work `UpsertPreferences` hands to the Transactioner: upsert
each pair in order, stop at the first store error, and accumulate the keys
written so far. Returns the closure outcome, the accumulated key list and the
store calls made. -/
def upsertUnitOfWork (store : storeBehavior) (userID : GoString) :
    List (GoString × GoString) → List GoString →
    (Option StoreError × List GoString) × List CallEvent
  | [], updatedKeys => ((none, updatedKeys), [])
  | (key, value) :: rest, updatedKeys =>
    let call := CallEvent.upsertCall userID key value
    match store.upsertPreference userID key value with
    | some e => ((some e, updatedKeys), [call])
    | none =>
      let r := upsertUnitOfWork store userID rest (updatedKeys ++ [key])
      (r.1, call :: r.2)

/-- `preferenceService.UpsertPreferences` from service.go: validate the whole
batch, then run every upsert inside one Transactioner invocation; any
transaction failure (begin, a store error inside the unit of work, or commit)
yields the internal error with a nil key list. -/
def preferenceService.UpsertPreferences (ps : preferenceService) (userID : GoString)
    (preferences : List (GoString × GoString)) :
    (Option (List GoString) × Option ServiceError) × List CallEvent :=
  match validateAllPreferences preferences with
  | some e => ((none, some e), [])
  | none =>
    match ps.transactioner.beginError with
    | some _ => ((none, some ErrorInternalServerError), [CallEvent.transactCall])
    | none =>
      let r := upsertUnitOfWork ps.store userID preferences []
      let events := CallEvent.transactCall :: r.2
      match r.1.1 with
      | some _ => ((none, some ErrorInternalServerError), events)
      | none =>
        match ps.transactioner.commitError with
        | some _ => ((none, some ErrorInternalServerError), events)
        | none => ((some r.1.2, none), events)

/-- `preferenceService.DeletePreference` from service.go: key validation, one
store call, sentinel mapped to not-found, other errors to the internal error. -/
def preferenceService.DeletePreference (ps : preferenceService) (userID key : GoString) :
    Option ServiceError × List CallEvent :=
  match validatePreferenceKey key with
  | some e => (some e, [])
  | none =>
    let events := [CallEvent.deleteCall userID key]
    match ps.store.deletePreference userID key with
    | some StoreError.preferenceNotFound => (some ErrorPreferenceNotFound, events)
    | some _ => (some ErrorInternalServerError, events)
    | none => (none, events)

/-- The store behaviour realised by the concrete `preferenceStore` (its
methods with the database-call trace projected away), used to compose the
service with the store as Initialize wires them. -/
def storeBehaviorOf (ps : preferenceStore) : storeBehavior :=
  { getPreferenceByKey := fun userID key => (ps.GetPreferenceByKey userID key).1
    getPreferencesByUserID := fun userID => (ps.GetPreferencesByUserID userID).1
    upsertPreference := fun userID key value => (ps.UpsertPreference userID key value).1
    deletePreference := fun userID key => (ps.DeletePreference userID key).1 }

/-- `newPreferenceService` over a concrete store, as Initialize assembles it. -/
def serviceOver (ps : preferenceStore) (tx : TxBehavior) : preferenceService :=
  { store := storeBehaviorOf ps, transactioner := tx }

/-- Strict lexicographic comparison of embedded strings by character code,
the ordering `ORDER BY PREFERENCE_KEY ASC` sorts by. -/
def goStrLt : GoString → GoString → Bool
  | [], [] => false
  | [], _ :: _ => true
  | _ :: _, [] => false
  | a :: as, b :: bs => if a < b then true else if b < a then false else goStrLt as bs

/-- Non-strict lexicographic comparison of embedded strings. -/
def goStrLe (a b : GoString) : Bool := !(goStrLt b a)

/-- Rows in ascending order of the key column, as the ORDER BY clause of
`queryGetPreferencesByUserID` demands of the database. -/
def rowKeyLe (r s : DBRow) : Prop :=
  goStrLe (toString r.preference_key) (toString s.preference_key) = true

/-- Preferences in ascending order of key. -/
def prefKeyLe (p q : Preference) : Prop := goStrLe p.key q.key = true

/-- A store behaviour in which every operation succeeds, for concrete runs. -/
def okStore : storeBehavior :=
  { getPreferenceByKey := fun _ _ => (none, none)
    getPreferencesByUserID := fun _ => (some [], none)
    upsertPreference := fun _ _ _ => none
    deletePreference := fun _ _ => none }

/-- A transactioner that never fails. -/
def okTx : TxBehavior := { beginError := none, commitError := none }

/-- A transactioner whose begin step fails. -/
def failTx : TxBehavior := { beginError := some "transaction error", commitError := none }

/-- A service over the always-succeeding store and transactioner. -/
def okService : preferenceService := { store := okStore, transactioner := okTx }

/-- A service over the always-succeeding store and a failing transactioner. -/
def failService : preferenceService := { store := okStore, transactioner := failTx }

/-- A concrete user identifier for witnesses. -/
def uid : GoString := ['u', '1']

/-- A concrete valid preference key for witnesses. -/
def goodKey : GoString := ['t', 'h', 'e', 'm', 'e']

/-- A value one character over the allowed maximum. -/
def longValue : GoString := List.replicate 10001 'b'

/-- A database client answering every query with the same fixed row list and
every execute with one affected row. -/
def constClient (rows : List DBRow) : DBClientBehavior :=
  { queryGetPreferenceByKey := fun _ _ _ => Except.ok rows
    queryGetPreferencesByUserID := fun _ _ => Except.ok rows
    execUpsertPreference := fun _ _ _ _ => Except.ok 1
    execDeletePreference := fun _ _ _ => Except.ok 1 }

/-- A store over `constClient` with a given deployment discriminator. -/
def storeWith (rows : List DBRow) (d : GoString) : preferenceStore :=
  { dbClient := constClient rows, deploymentID := d }

/-- A concrete row whose key sorts first. -/
def rowA : DBRow :=
  { preference_key := DBValue.strv ['a']
    preference_value := DBValue.strv ['1']
    created_at := DBValue.null
    updated_at := DBValue.null }

/-- A concrete row whose key sorts second. -/
def rowB : DBRow :=
  { preference_key := DBValue.strv ['b']
    preference_value := DBValue.strv ['2']
    created_at := DBValue.null
    updated_at := DBValue.null }

/-- Key validation returns no error or exactly the invalid-key constant. -/
theorem validatePreferenceKey_cases (key : GoString) :
    validatePreferenceKey key = none ∨
      validatePreferenceKey key = some ErrorInvalidPreferenceKey := by
  unfold validatePreferenceKey
  split
  · exact Or.inr rfl
  · split
    · exact Or.inr rfl
    · exact Or.inl rfl

/-- Value validation returns no error or exactly the invalid-value constant. -/
theorem validatePreferenceValue_cases (value : GoString) :
    validatePreferenceValue value = none ∨
      validatePreferenceValue value = some ErrorInvalidPreferenceValue := by
  unfold validatePreferenceValue
  split
  · exact Or.inr rfl
  · exact Or.inl rfl

/-- A string that trims to nothing is whitespace throughout. -/
theorem all_space_of_trimSpace_eq_nil (s : GoString) (h : trimSpace s = []) :
    ∀ c ∈ s, isSpaceGo c = true := by
  unfold trimSpace at h
  rw [List.reverse_eq_nil_iff] at h
  have h3 : ∀ c ∈ s.dropWhile isSpaceGo, isSpaceGo c = true := by
    intro c hc
    exact List.dropWhile_eq_nil_iff.mp h c (List.mem_reverse.mpr hc)
  intro c hc
  rw [← List.takeWhile_append_dropWhile isSpaceGo s] at hc
  rcases List.mem_append.mp hc with h4 | h4
  · exact List.mem_takeWhile_imp h4
  · exact h3 c h4

/-- A string containing a non-whitespace character does not trim to nothing. -/
theorem trimSpace_ne_nil (s : GoString) (c : Char) (hc : c ∈ s)
    (hns : isSpaceGo c = false) : trimSpace s ≠ [] := by
  intro h
  have hcontra := all_space_of_trimSpace_eq_nil s h c hc
  rw [hns] at hcontra
  exact Bool.false_ne_true hcontra

/-- When batch validation reports an error, the error is one of the two
validation constants and comes from a pair of the batch. -/
theorem validateAllPreferences_some (l : List (GoString × GoString)) (e : ServiceError)
    (h : validateAllPreferences l = some e) :
    (e = ErrorInvalidPreferenceKey ∧ ∃ p ∈ l, validatePreferenceKey p.1 = some e) ∨
    (e = ErrorInvalidPreferenceValue ∧ ∃ p ∈ l, validatePreferenceValue p.2 = some e) := by
  induction l with
  | nil => exact absurd h (by simp [validateAllPreferences])
  | cons hd tl ih =>
    obtain ⟨k, v⟩ := hd
    unfold validateAllPreferences at h
    rcases validatePreferenceKey_cases k with hk | hk
    · rw [hk] at h
      rcases validatePreferenceValue_cases v with hv | hv
      · rw [hv] at h
        rcases ih h with ⟨he, p, hp, hval⟩ | ⟨he, p, hp, hval⟩
        · exact Or.inl ⟨he, p, List.mem_cons_of_mem _ hp, hval⟩
        · exact Or.inr ⟨he, p, List.mem_cons_of_mem _ hp, hval⟩
      · rw [hv] at h
        obtain rfl : ErrorInvalidPreferenceValue = e := Option.some.inj h
        exact Or.inr ⟨rfl, (k, v), List.mem_cons_self _ _, hv⟩
    · rw [hk] at h
      obtain rfl : ErrorInvalidPreferenceKey = e := Option.some.inj h
      exact Or.inl ⟨rfl, (k, v), List.mem_cons_self _ _, hk⟩

/-- Batch validation does not pass when some pair of the batch is invalid. -/
theorem validateAllPreferences_ne_none (l : List (GoString × GoString))
    (p : GoString × GoString) (hp : p ∈ l)
    (hbad : validatePreferenceKey p.1 ≠ none ∨ validatePreferenceValue p.2 ≠ none) :
    validateAllPreferences l ≠ none := by
  induction l with
  | nil => cases hp
  | cons hd tl ih =>
    obtain ⟨k, v⟩ := hd
    unfold validateAllPreferences
    rcases validatePreferenceKey_cases k with hk | hk
    · rw [hk]
      rcases validatePreferenceValue_cases v with hv | hv
      · rw [hv]
        rcases List.mem_cons.mp hp with rfl | hp2
        · rcases hbad with hb | hb
          · exact absurd hk hb
          · exact absurd hv hb
        · exact ih hp2
      · rw [hv]; exact Option.some_ne_none _
    · rw [hk]; exact Option.some_ne_none _

/-- When every value of the batch is valid and some key of the batch is
invalid, batch validation reports exactly the invalid-key constant. -/
theorem validateAllPreferences_invalid_key (l : List (GoString × GoString))
    (hv : ∀ p ∈ l, validatePreferenceValue p.2 = none)
    (hbad : ∃ p ∈ l, validatePreferenceKey p.1 ≠ none) :
    validateAllPreferences l = some ErrorInvalidPreferenceKey := by
  induction l with
  | nil => obtain ⟨p, hp, _⟩ := hbad; cases hp
  | cons hd tl ih =>
    obtain ⟨k, v⟩ := hd
    unfold validateAllPreferences
    rcases validatePreferenceKey_cases k with hk | hk
    · rw [hk, hv (k, v) (List.mem_cons_self _ _)]
      refine ih (fun p hp => hv p (List.mem_cons_of_mem _ hp)) ?_
      obtain ⟨p, hp, hb⟩ := hbad
      rcases List.mem_cons.mp hp with rfl | hp2
      · exact absurd hk hb
      · exact ⟨p, hp2, hb⟩
    · rw [hk]

/-- When every store upsert of the batch succeeds, the unit of work succeeds
and accumulates exactly the input keys after the given prefix. -/
theorem upsertUnitOfWork_ok (store : storeBehavior) (userID : GoString)
    (l : List (GoString × GoString))
    (h : ∀ p ∈ l, store.upsertPreference userID p.1 p.2 = none) :
    ∀ acc, (upsertUnitOfWork store userID l acc).1 = (none, acc ++ l.map Prod.fst) := by
  induction l with
  | nil => intro acc; simp [upsertUnitOfWork]
  | cons hd tl ih =>
    intro acc
    obtain ⟨k, v⟩ := hd
    unfold upsertUnitOfWork
    rw [h (k, v) (List.mem_cons_self _ _)]
    simp only
    rw [ih (fun p hp => h p (List.mem_cons_of_mem _ hp)) (acc ++ [k])]
    simp

/-- Row conversion carries the key column through `toString`. -/
theorem convRow_key (row : DBRow) : (convRow row).key = toString row.preference_key := by
  unfold convRow
  cases row.created_at <;> cases row.updated_at <;> rfl

/-- Row conversion carries the value column through `toString`. -/
theorem convRow_value (row : DBRow) : (convRow row).value = toString row.preference_value := by
  unfold convRow
  cases row.created_at <;> cases row.updated_at <;> rfl

/-- Claim C1: when a batch handed to UpsertPreferences contains an invalid
pair, the service answers with that violation's validation error (the
invalid-key or invalid-value constant, witnessed by a pair of the batch) and
performs no store or transactioner call at all. -/
theorem claim_C1_invalid_batch_rejected_without_writes (ps : preferenceService)
    (userID : GoString) (preferences : List (GoString × GoString))
    (hbad : ∃ p ∈ preferences,
      validatePreferenceKey p.1 ≠ none ∨ validatePreferenceValue p.2 ≠ none) :
    ∃ e, ps.UpsertPreferences userID preferences = ((none, some e), []) ∧
      ((e = ErrorInvalidPreferenceKey ∧
          ∃ p ∈ preferences, validatePreferenceKey p.1 = some e) ∨
       (e = ErrorInvalidPreferenceValue ∧
          ∃ p ∈ preferences, validatePreferenceValue p.2 = some e)) := by
  obtain ⟨p, hp, hb⟩ := hbad
  have hne := validateAllPreferences_ne_none preferences p hp hb
  cases hva : validateAllPreferences preferences with
  | none => exact absurd hva hne
  | some e =>
    refine ⟨e, ?_, validateAllPreferences_some preferences e hva⟩
    unfold preferenceService.UpsertPreferences
    rw [hva]

/-- Witness for claim C1: a batch whose single pair has the empty key is
rejected with no collaborator call. -/
theorem claim_C1_witness :
    ∃ e, okService.UpsertPreferences uid [([], ['v'])] = ((none, some e), []) ∧
      ((e = ErrorInvalidPreferenceKey ∧
          ∃ p ∈ [(([] : GoString), (['v'] : GoString))], validatePreferenceKey p.1 = some e) ∨
       (e = ErrorInvalidPreferenceValue ∧
          ∃ p ∈ [(([] : GoString), (['v'] : GoString))], validatePreferenceValue p.2 = some e)) :=
  claim_C1_invalid_batch_rejected_without_writes okService uid [([], ['v'])]
    ⟨([], ['v']), List.mem_singleton.mpr rfl, Or.inl (by decide)⟩

/-- Claim C2: when the transactioner reports an error while running the upsert
unit of work — a begin failure, a store failure partway through the sequence,
or a commit failure — UpsertPreferences returns the internal error and a nil
key list. -/
theorem claim_C2_transaction_failure_internal_error (ps : preferenceService)
    (userID : GoString) (preferences : List (GoString × GoString))
    (hvalid : validateAllPreferences preferences = none)
    (hfail : ps.transactioner.beginError ≠ none ∨
             (upsertUnitOfWork ps.store userID preferences []).1.1 ≠ none ∨
             ps.transactioner.commitError ≠ none) :
    (ps.UpsertPreferences userID preferences).1 = (none, some ErrorInternalServerError) := by
  unfold preferenceService.UpsertPreferences
  rw [hvalid]
  cases hb : ps.transactioner.beginError with
  | some e => rfl
  | none =>
    cases hu : (upsertUnitOfWork ps.store userID preferences []).1.1 with
    | some e => simp [hu]
    | none =>
      cases hcm : ps.transactioner.commitError with
      | some e => simp [hu, hcm]
      | none =>
        rcases hfail with h | h | h
        · exact absurd hb h
        · exact absurd hu h
        · exact absurd hcm h

/-- Witness for claim C2: a valid one-pair batch against a transactioner whose
begin step fails yields the internal error and no key list. -/
theorem claim_C2_witness :
    (failService.UpsertPreferences uid [(goodKey, ['v'])]).1 =
      (none, some ErrorInternalServerError) :=
  claim_C2_transaction_failure_internal_error failService uid [(goodKey, ['v'])]
    (by decide) (Or.inl (by decide))

/-- Claim C3: for a valid batch whose transaction succeeds, UpsertPreferences
returns precisely the keys of the batch — every input key appears and no
other key does. -/
theorem claim_C3_success_returns_input_keys (ps : preferenceService) (userID : GoString)
    (preferences : List (GoString × GoString))
    (hvalid : validateAllPreferences preferences = none)
    (hstore : ∀ p ∈ preferences, ps.store.upsertPreference userID p.1 p.2 = none)
    (hbegin : ps.transactioner.beginError = none)
    (hcommit : ps.transactioner.commitError = none) :
    ∃ keys, (ps.UpsertPreferences userID preferences).1 = (some keys, none) ∧
      ∀ k, k ∈ keys ↔ ∃ v, (k, v) ∈ preferences := by
  have hu := upsertUnitOfWork_ok ps.store userID preferences hstore []
  have hu1 : (upsertUnitOfWork ps.store userID preferences []).1.1 = none := by
    rw [hu]
  have hu2 : (upsertUnitOfWork ps.store userID preferences []).1.2 =
      preferences.map Prod.fst := by
    rw [hu]; exact List.nil_append _
  refine ⟨preferences.map Prod.fst, ?_, ?_⟩
  · simp [preferenceService.UpsertPreferences, hvalid, hbegin, hcommit, hu1, hu2]
  · intro k
    constructor
    · intro hk
      obtain ⟨p, hp, hpk⟩ := List.mem_map.mp hk
      obtain ⟨a, b⟩ := p
      obtain rfl : a = k := hpk
      exact ⟨b, hp⟩
    · rintro ⟨v, hv⟩
      exact List.mem_map.mpr ⟨(k, v), hv, rfl⟩

/-- Witness for claim C3: a valid one-pair batch against the succeeding store
and transactioner returns exactly its key set. -/
theorem claim_C3_witness :
    ∃ keys, (okService.UpsertPreferences uid [(goodKey, ['x'])]).1 = (some keys, none) ∧
      ∀ k, k ∈ keys ↔ ∃ v, (k, v) ∈ [(goodKey, (['x'] : GoString))] :=
  claim_C3_success_returns_input_keys okService uid [(goodKey, ['x'])]
    (by decide) (fun p _ => rfl) rfl rfl

/-- Counterexample to claim C4 as stated: the single-space key has length 1,
inside [1,255], yet key validation rejects it (TrimSpace leaves nothing). -/
theorem claim_C4_counterexample :
    1 ≤ lenGo [' '] ∧ lenGo [' '] ≤ 255 ∧
      validatePreferenceKey [' '] = some ErrorInvalidPreferenceKey :=
  ⟨by decide, by decide, by decide⟩

/-- Claim C4 (amended): every key of length in [1,255] containing at least one
non-whitespace character passes key validation, and every value of length at
most 10000 passes value validation. (The amendment excludes whitespace-only
keys, which the TrimSpace check rejects regardless of length.) -/
theorem claim_C4_amended_validation_passes (key value : GoString)
    (hk1 : 1 ≤ lenGo key) (hk2 : lenGo key ≤ 255)
    (hkc : ∃ c ∈ key, isSpaceGo c = false)
    (hv : lenGo value ≤ 10000) :
    validatePreferenceKey key = none ∧ validatePreferenceValue value = none := by
  obtain ⟨c, hc, hcs⟩ := hkc
  constructor
  · unfold validatePreferenceKey
    rw [if_neg (trimSpace_ne_nil key c hc hcs),
      if_neg (by unfold maxPreferenceKeyLength; omega)]
  · unfold validatePreferenceValue
    rw [if_neg (by unfold maxPreferenceValueLength; omega)]

/-- Witness for claim C4 (amended): a five-letter key and a one-letter value
pass validation. -/
theorem claim_C4_witness :
    validatePreferenceKey goodKey = none ∧ validatePreferenceValue ['x'] = none :=
  claim_C4_amended_validation_passes goodKey ['x'] (by decide) (by decide)
    ⟨'t', by decide, by decide⟩ (by decide)

set_option maxRecDepth 4000 in
/-- Counterexample to claim C5 as stated: a batch that also carries an
over-long value on an earlier pair makes UpsertPreferences report the
invalid-value error, not the invalid-key error, although the empty (invalid)
key is in the batch. -/
theorem claim_C5_counterexample :
    (okService.UpsertPreferences uid [(['a'], longValue), ([], ['v'])]).1.2 =
      some ErrorInvalidPreferenceValue ∧
    validatePreferenceKey [] = some ErrorInvalidPreferenceKey ∧
    ErrorInvalidPreferenceValue ≠ ErrorInvalidPreferenceKey := by
  refine ⟨?_, by decide, by decide⟩
  have h1 : validatePreferenceKey ['a'] = none := by decide
  have hlen : lenGo longValue = 10001 := by
    unfold longValue lenGo
    rw [List.length_replicate]
  have h2 : validatePreferenceValue longValue = some ErrorInvalidPreferenceValue := by
    unfold validatePreferenceValue
    rw [if_pos (by rw [hlen]; unfold maxPreferenceValueLength; omega)]
  have hall : validateAllPreferences [(['a'], longValue), ([], ['v'])] =
      some ErrorInvalidPreferenceValue := by
    unfold validateAllPreferences
    rw [h1, h2]
  unfold preferenceService.UpsertPreferences
  rw [hall]

/-- Claim C5 (amended): for an empty, whitespace-only or over-long key,
GetPreferenceByKey and DeletePreference return the invalid-key error with no
store call, and UpsertPreferences with that key in the batch does too provided
every value of the batch is valid (otherwise the invalid value of an earlier
pair of the iteration order is reported instead). -/
theorem claim_C5_invalid_key_rejected (ps : preferenceService) (userID key : GoString)
    (hbad : trimSpace key = [] ∨ 256 ≤ lenGo key) :
    ps.GetPreferenceByKey userID key = ((none, some ErrorInvalidPreferenceKey), []) ∧
    ps.DeletePreference userID key = (some ErrorInvalidPreferenceKey, []) ∧
    ∀ preferences : List (GoString × GoString),
      (∃ v, (key, v) ∈ preferences) →
      (∀ p ∈ preferences, validatePreferenceValue p.2 = none) →
      ps.UpsertPreferences userID preferences =
        ((none, some ErrorInvalidPreferenceKey), []) := by
  have hk : validatePreferenceKey key = some ErrorInvalidPreferenceKey := by
    unfold validatePreferenceKey
    rcases hbad with h | h
    · rw [if_pos h]
    · by_cases ht : trimSpace key = []
      · rw [if_pos ht]
      · rw [if_neg ht, if_pos (by unfold maxPreferenceKeyLength; omega)]
  refine ⟨?_, ?_, ?_⟩
  · unfold preferenceService.GetPreferenceByKey
    rw [hk]
  · unfold preferenceService.DeletePreference
    rw [hk]
  · rintro preferences ⟨v, hv⟩ hvals
    have hall : validateAllPreferences preferences = some ErrorInvalidPreferenceKey :=
      validateAllPreferences_invalid_key preferences hvals
        ⟨(key, v), hv, by rw [hk]; exact Option.some_ne_none _⟩
    unfold preferenceService.UpsertPreferences
    rw [hall]

/-- Witness for claim C5 (amended): the whitespace-only key is rejected by all
three operations with no collaborator call. -/
theorem claim_C5_witness :
    okService.GetPreferenceByKey uid [' '] =
      ((none, some ErrorInvalidPreferenceKey), []) ∧
    okService.DeletePreference uid [' '] = (some ErrorInvalidPreferenceKey, []) ∧
    okService.UpsertPreferences uid [([' '], ['v'])] =
      ((none, some ErrorInvalidPreferenceKey), []) := by
  have h := claim_C5_invalid_key_rejected okService uid [' '] (Or.inl (by decide))
  exact ⟨h.1, h.2.1,
    h.2.2 [([' '], ['v'])] ⟨['v'], List.mem_singleton.mpr rfl⟩ (by decide)⟩

/-- Claim C6: for a valid key, the service-plus-store delete pipeline maps a
database error to the internal error; when the delete executes and affects at
most one row (the composite uniqueness of USER_ID, DEPLOYMENT_ID and
PREFERENCE_KEY guarantees this), it succeeds exactly when one row was removed
and reports not-found exactly when zero rows were. -/
theorem claim_C6_delete_outcomes (ps : preferenceStore) (tx : TxBehavior)
    (userID key : GoString) (hkey : validatePreferenceKey key = none) :
    (∀ e, ps.dbClient.execDeletePreference userID key ps.deploymentID = Except.error e →
      ((serviceOver ps tx).DeletePreference userID key).1 =
        some ErrorInternalServerError) ∧
    (∀ n, ps.dbClient.execDeletePreference userID key ps.deploymentID = Except.ok n →
      n ≤ 1 →
      ((((serviceOver ps tx).DeletePreference userID key).1 = none) ↔ n = 1) ∧
      ((((serviceOver ps tx).DeletePreference userID key).1 =
          some ErrorPreferenceNotFound) ↔ n = 0)) := by
  have hbeh : (serviceOver ps tx).store.deletePreference userID key =
      (ps.DeletePreference userID key).1 := rfl
  constructor
  · intro e he
    have hs : (ps.DeletePreference userID key).1 =
        some (StoreError.wrapped "failed to delete preference" e) := by
      unfold preferenceStore.DeletePreference
      rw [he]
    unfold preferenceService.DeletePreference
    rw [hkey, hbeh, hs]
  · intro n hn hle
    unfold preferenceService.DeletePreference
    rw [hkey, hbeh]
    interval_cases n
    · have hs : (ps.DeletePreference userID key).1 =
          some StoreError.preferenceNotFound := by
        unfold preferenceStore.DeletePreference
        rw [hn]
        rfl
      rw [hs]
      simp
    · have hs : (ps.DeletePreference userID key).1 = none := by
        unfold preferenceStore.DeletePreference
        rw [hn]
        rfl
      rw [hs]
      simp

/-- Witness for claim C6: over a client whose delete affects one row, the
pipeline succeeds. -/
theorem claim_C6_witness :
    ((serviceOver (storeWith [] ['d']) okTx).DeletePreference uid goodKey).1 = none := by
  have h := claim_C6_delete_outcomes (storeWith [] ['d']) okTx uid goodKey (by decide)
  exact (h.2 1 rfl (by decide)).1.mpr rfl

/-- Claim C7: GetPreferencesByUserID collapses a store failure to the internal
error; on success it returns the converted rows as a present (never nil) slice
— empty, not nil, for a user with no rows — and in ascending key order
whenever the database honours the ORDER BY clause of the query it is sent. -/
theorem claim_C7_get_all_ordered (ps : preferenceStore) (tx : TxBehavior)
    (userID : GoString) :
    (∀ e, ps.dbClient.queryGetPreferencesByUserID userID ps.deploymentID =
        Except.error e →
      ((serviceOver ps tx).GetPreferencesByUserID userID).1 =
        (none, some ErrorInternalServerError)) ∧
    (∀ rows, ps.dbClient.queryGetPreferencesByUserID userID ps.deploymentID =
        Except.ok rows →
      ((serviceOver ps tx).GetPreferencesByUserID userID).1 =
        (some (rows.map convRow), none) ∧
      (rows = [] →
        ((serviceOver ps tx).GetPreferencesByUserID userID).1 = (some [], none)) ∧
      (List.Pairwise rowKeyLe rows → List.Pairwise prefKeyLe (rows.map convRow))) := by
  have hbeh : (serviceOver ps tx).store.getPreferencesByUserID userID =
      (ps.GetPreferencesByUserID userID).1 := rfl
  constructor
  · intro e he
    have hs : (ps.GetPreferencesByUserID userID).1 =
        (none, some (StoreError.wrapped "failed to execute query" e)) := by
      unfold preferenceStore.GetPreferencesByUserID
      rw [he]
    unfold preferenceService.GetPreferencesByUserID
    rw [hbeh, hs]
  · intro rows hrows
    have hs : (ps.GetPreferencesByUserID userID).1 = (some (rows.map convRow), none) := by
      unfold preferenceStore.GetPreferencesByUserID
      rw [hrows]
    have hres : ((serviceOver ps tx).GetPreferencesByUserID userID).1 =
        (some (rows.map convRow), none) := by
      unfold preferenceService.GetPreferencesByUserID
      rw [hbeh, hs]
    refine ⟨hres, ?_, ?_⟩
    · intro hnil
      rw [hres, hnil]
      rfl
    · intro hsorted
      refine List.Pairwise.map convRow ?_ hsorted
      intro a b hab
      unfold prefKeyLe
      rw [convRow_key, convRow_key]
      exact hab

/-- Witness for claim C7: two rows in key order come back converted, present
and still in key order. -/
theorem claim_C7_witness :
    ((serviceOver (storeWith [rowA, rowB] ['d']) okTx).GetPreferencesByUserID uid).1 =
      (some ([rowA, rowB].map convRow), none) ∧
    List.Pairwise prefKeyLe ([rowA, rowB].map convRow) := by
  have h := (claim_C7_get_all_ordered (storeWith [rowA, rowB] ['d']) okTx uid).2
    [rowA, rowB] rfl
  have hsor : List.Pairwise rowKeyLe [rowA, rowB] := by
    refine List.Pairwise.cons ?_ (List.pairwise_singleton _ _)
    intro b hb
    rw [List.mem_singleton.mp hb]
    rfl
  exact ⟨h.1, h.2.2 hsor⟩

/-- Claim C8: for a valid key, the service-plus-store read pipeline reports
not-found exactly when the query returns zero rows, collapses every database
error to the internal error, and on a returned row yields its conversion. -/
theorem claim_C8_get_by_key_outcomes (ps : preferenceStore) (tx : TxBehavior)
    (userID key : GoString) (hkey : validatePreferenceKey key = none) :
    (∀ e, ps.dbClient.queryGetPreferenceByKey userID key ps.deploymentID =
        Except.error e →
      ((serviceOver ps tx).GetPreferenceByKey userID key).1 =
        (none, some ErrorInternalServerError)) ∧
    (ps.dbClient.queryGetPreferenceByKey userID key ps.deploymentID = Except.ok [] →
      ((serviceOver ps tx).GetPreferenceByKey userID key).1 =
        (none, some ErrorPreferenceNotFound)) ∧
    (∀ row rest, ps.dbClient.queryGetPreferenceByKey userID key ps.deploymentID =
        Except.ok (row :: rest) →
      ((serviceOver ps tx).GetPreferenceByKey userID key).1 =
        (some (convRow row), none)) := by
  have hbeh : (serviceOver ps tx).store.getPreferenceByKey userID key =
      (ps.GetPreferenceByKey userID key).1 := rfl
  refine ⟨?_, ?_, ?_⟩
  · intro e he
    have hs : (ps.GetPreferenceByKey userID key).1 =
        (none, some (StoreError.wrapped "failed to execute query" e)) := by
      unfold preferenceStore.GetPreferenceByKey
      rw [he]
    unfold preferenceService.GetPreferenceByKey
    rw [hkey, hbeh, hs]
  · intro he
    have hs : (ps.GetPreferenceByKey userID key).1 =
        (none, some StoreError.preferenceNotFound) := by
      unfold preferenceStore.GetPreferenceByKey
      rw [he]
    unfold preferenceService.GetPreferenceByKey
    rw [hkey, hbeh, hs]
  · intro row rest he
    have hs : (ps.GetPreferenceByKey userID key).1 = (some (convRow row), none) := by
      unfold preferenceStore.GetPreferenceByKey
      rw [he]
    unfold preferenceService.GetPreferenceByKey
    rw [hkey, hbeh, hs]

/-- Witness for claim C8: a query returning zero rows surfaces as the
not-found error. -/
theorem claim_C8_witness :
    ((serviceOver (storeWith [] ['e']) okTx).GetPreferenceByKey uid goodKey).1 =
      (none, some ErrorPreferenceNotFound) := by
  have h := claim_C8_get_by_key_outcomes (storeWith [] ['e']) okTx uid goodKey (by decide)
  exact h.2.1 rfl

/-- Claim C9: the deployment discriminator is fixed at store construction from
the process configuration, and every one of the four store operations passes
exactly that construction-time value as the deployment argument of its single
database call — never a caller-supplied one. -/
theorem claim_C9_deployment_from_construction (runtime : ThunderRuntimeConfig)
    (dbClient : DBClientBehavior) (userID key value : GoString) :
    (newPreferenceStore runtime dbClient).deploymentID = runtime.serverIdentifier ∧
    ((newPreferenceStore runtime dbClient).GetPreferenceByKey userID key).2 =
      [DBCall.queryGetPreferenceByKey userID key runtime.serverIdentifier] ∧
    ((newPreferenceStore runtime dbClient).GetPreferencesByUserID userID).2 =
      [DBCall.queryGetPreferencesByUserID userID runtime.serverIdentifier] ∧
    ((newPreferenceStore runtime dbClient).UpsertPreference userID key value).2 =
      [DBCall.execUpsertPreference userID key value runtime.serverIdentifier] ∧
    ((newPreferenceStore runtime dbClient).DeletePreference userID key).2 =
      [DBCall.execDeletePreference userID key runtime.serverIdentifier] := by
  refine ⟨rfl, ?_, ?_, ?_, ?_⟩
  · simp only [newPreferenceStore, preferenceStore.GetPreferenceByKey]
    cases dbClient.queryGetPreferenceByKey userID key runtime.serverIdentifier with
    | error e => rfl
    | ok results => cases results <;> rfl
  · simp only [newPreferenceStore, preferenceStore.GetPreferencesByUserID]
    cases dbClient.queryGetPreferencesByUserID userID runtime.serverIdentifier with
    | error e => rfl
    | ok results => rfl
  · simp only [newPreferenceStore, preferenceStore.UpsertPreference]
    cases dbClient.execUpsertPreference userID key value runtime.serverIdentifier with
    | error e => rfl
    | ok n => rfl
  · simp only [newPreferenceStore, preferenceStore.DeletePreference]
    cases dbClient.execDeletePreference userID key runtime.serverIdentifier with
    | error e => rfl
    | ok n =>
      by_cases hn : n = 0 <;> simp [hn]

/-- Claim C10: a NULL value column surfaces as the empty string through both
getters, so at the service boundary it is indistinguishable from a value
explicitly stored as the empty string; a NULL key column likewise surfaces as
the empty string. -/
theorem claim_C10_null_collapses_to_empty (userID key d : GoString) (k c u : DBValue) :
    ((storeWith [⟨k, DBValue.null, c, u⟩] d).GetPreferenceByKey userID key).1 =
      ((storeWith [⟨k, DBValue.strv [], c, u⟩] d).GetPreferenceByKey userID key).1 ∧
    ((storeWith [⟨k, DBValue.null, c, u⟩] d).GetPreferencesByUserID userID).1 =
      ((storeWith [⟨k, DBValue.strv [], c, u⟩] d).GetPreferencesByUserID userID).1 ∧
    Option.map Preference.value
      ((storeWith [⟨k, DBValue.null, c, u⟩] d).GetPreferenceByKey userID key).1.1 =
      some [] ∧
    Option.map Preference.key
      ((storeWith [⟨DBValue.null, DBValue.strv ['v'], c, u⟩] d).GetPreferenceByKey
        userID key).1.1 = some [] := by
  have hconv : convRow ⟨k, DBValue.null, c, u⟩ = convRow ⟨k, DBValue.strv [], c, u⟩ := by
    unfold convRow
    cases c <;> cases u <;> rfl
  refine ⟨?_, ?_, ?_, ?_⟩
  · simp only [storeWith, constClient, preferenceStore.GetPreferenceByKey, hconv]
  · simp only [storeWith, constClient, preferenceStore.GetPreferencesByUserID,
      List.map, hconv]
  · simp only [storeWith, constClient, preferenceStore.GetPreferenceByKey, Option.map,
      convRow_value]
    rfl
  · simp only [storeWith, constClient, preferenceStore.GetPreferenceByKey, Option.map,
      convRow_key]
    rfl

end Thunder.Preference
